import Mathlib

/-!
Verification of the recurring broadcast scheduler of `xabar.py`
(the `ads_worker` coroutine and its helpers), as a shallow embedding.

Time is modelled as `Int` seconds. Stored timestamp columns are raw
strings in the database; the embedding only distinguishes the three
cases the code distinguishes: a falsy value (SQL NULL or the empty
string), a non-empty string rejected by `datetime.fromisoformat`, and a
string parsing to a time `t`.

External effects (the Telethon send, `asyncio.sleep`) are modelled by a
send oracle `String → SendResult` giving each destination's provider
response, and by a trace of `SendEvent`s recording every attempted send
and every sleep. Unexpected job-level failures (a store read raising for
one job, as the worker's tick-level `except` would see) are modelled by
a fault oracle `Nat → Bool` keyed by message id.
-/

/-- A raw timestamp column. `falsy` is SQL NULL or the empty string
(falsy in Python), `unparsable` a non-empty string that
`datetime.fromisoformat` rejects, `parsed t` a string parsing to `t`. -/
inductive RawTime
  | falsy
  | unparsable
  | parsed (t : Int)
deriving DecidableEq

/-- A row of the `users` table (`user_id, is_admin, paid_until, balance`). -/
structure UserRow where
  user_id : Nat
  is_admin : Bool
  paid_until : RawTime
  balance : Int
deriving DecidableEq

/-- A row of the `accounts` table. -/
structure AccountRow where
  id : Nat
  user_id : Nat
  phone : String
  session_string : String
  is_active : Bool
deriving DecidableEq

/-- A row of the `groups` table; `group_id` is the provider-level
destination reference string. -/
structure GroupRow where
  id : Nat
  user_id : Nat
  group_id : String
  group_name : String
  is_active : Bool
deriving DecidableEq

/-- A row of the `messages` table: one broadcast job. -/
structure MessageRow where
  id : Nat
  user_id : Nat
  text : String
  photo_path : Option String
  interval_sec : Int
  last_sent : RawTime
  active : Bool
  sent_count : Nat
deriving DecidableEq

/-- The backing SQLite store, one list per table the worker touches. -/
structure Store where
  users : List UserRow
  accounts : List AccountRow
  groups : List GroupRow
  messages : List MessageRow

/-- Outcome of one provider send: success, a `FloodWaitError` carrying
the required wait in seconds, or any other exception. -/
inductive SendResult
  | ok
  | floodWait (seconds : Nat)
  | error (msg : String)
deriving DecidableEq

/-- One observable event of a fan-out pass: a send attempt (with the
destination reference, the text and photo actually handed to the client,
and the provider's response), or a sleep in milliseconds. -/
inductive SendEvent
  | attempt (group_ref : String) (text : String) (photo : Option String) (result : SendResult)
  | sleep (ms : Nat)
deriving DecidableEq

/-- `SELECT paid_until FROM users WHERE user_id=?` (first matching row). -/
def find_user (store : Store) (uid : Nat) : Option UserRow :=
  store.users.find? (fun u => u.user_id == uid)

/-- `has_active_sub` (xabar.py lines 154-163): false when no row or a
falsy `paid_until`; on a parse failure the `except` returns false;
otherwise `fromisoformat(paid_until) > utcnow()`, i.e. strictly later. -/
def has_active_sub (store : Store) (uid : Nat) (now : Int) : Bool :=
  match find_user store uid with
  | none => false
  | some u =>
    match u.paid_until with
    | .falsy => false
    | .unparsable => false
    | .parsed t => decide (now < t)

/-- `get_user_groups` (lines 220-226): the owner's rows of `groups`
with `is_active=1`, in table order. -/
def get_user_groups (store : Store) (uid : Nat) : List GroupRow :=
  store.groups.filter (fun g => g.user_id == uid && g.is_active)

/-- `get_first_session_string` (lines 211-218): the `session_string` of
the first active account of the owner, if any. -/
def get_first_session_string (store : Store) (uid : Nat) : Option String :=
  ((store.accounts.filter (fun a => a.user_id == uid && a.is_active)).head?).map
    (fun a => a.session_string)

/-- The worker's due-time check (lines 996-1002): skip only when
`last_sent` is truthy, parses, and `utcnow() - last_dt <
timedelta(seconds=interval)`; a falsy value or a parse failure lets the
job through. -/
def is_due (last_sent : RawTime) (interval : Int) (now : Int) : Bool :=
  match last_sent with
  | .falsy => true
  | .unparsable => true
  | .parsed t => !decide (now - t < interval)

/-- Line 1011: `full_text = f"{text}\n\n{TAGLINE}" if TAGLINE else text`
(a Python string is truthy iff non-empty). -/
def full_text (tagline text : String) : String :=
  if tagline = "" then text else text ++ "\n\n" ++ tagline

/-- The body of one iteration of the per-destination loop (lines
1014-1021): one `send_ad_with_session` call; on success a 0.5 s pacing
sleep; on `FloodWaitError e` a sleep of `e.seconds`; on any other
exception only a log entry. -/
def send_events (oracle : String → SendResult) (txt : String) (photo : Option String)
    (g : GroupRow) : List SendEvent :=
  match oracle g.group_id with
  | .ok => [.attempt g.group_id txt photo .ok, .sleep 500]
  | .floodWait s => [.attempt g.group_id txt photo (.floodWait s), .sleep (1000 * s)]
  | .error m => [.attempt g.group_id txt photo (.error m)]

/-- The per-destination loop (lines 1013-1021): one iteration per group
in order. The text and photo handed to `send_ad_with_session` are
recorded in each attempt. -/
def fanout_pass : List GroupRow → (String → SendResult) → String → Option String → List SendEvent
  | [], _, _, _ => []
  | g :: gs, oracle, txt, photo =>
    send_events oracle txt photo g ++ fanout_pass gs oracle txt photo

/-- The destination references of the attempts of a trace, in order. -/
def attemptRefs : List SendEvent → List String
  | [] => []
  | .attempt ref _ _ _ :: es => ref :: attemptRefs es
  | .sleep _ :: es => attemptRefs es

/-- Number of send attempts a trace makes to a given destination. -/
def countAttempts (ref : String) (es : List SendEvent) : Nat :=
  (attemptRefs es).count ref

/-- The per-job body of the worker loop up to the fan-out (lines
991-1021): skip on no active subscription, then on the due-time check,
then on an empty group list, then on a missing/falsy session string;
otherwise run the fan-out pass. Returns whether a pass was attempted and
its event trace. -/
def process_job (store : Store) (now : Int) (oracle : String → SendResult)
    (tagline : String) (m : MessageRow) : Bool × List SendEvent :=
  if !has_active_sub store m.user_id now then (false, [])
  else if !is_due m.last_sent m.interval_sec now then (false, [])
  else
    let groups := get_user_groups store m.user_id
    if groups.isEmpty then (false, [])
    else
      match get_first_session_string store m.user_id with
      | none => (false, [])
      | some s =>
        if s = "" then (false, [])
        else (true, fanout_pass groups oracle (full_text tagline m.text) m.photo_path)

/-- The bookkeeping `UPDATE messages SET last_sent=?,
sent_count=sent_count+1 WHERE id=?` (lines 1024-1029). -/
def record_pass (msgs : List MessageRow) (msg_id : Nat) (now : Int) : List MessageRow :=
  msgs.map (fun r =>
    if r.id == msg_id then { r with last_sent := .parsed now, sent_count := r.sent_count + 1 }
    else r)

/-- What one tick of the worker produced. `processed` are the jobs whose
evaluation completed (in order), `booked` those for which a fan-out pass
was attempted and recorded, `aborted` whether an unexpected error
escaped to the tick-level `except`. -/
structure RunResult where
  messages : List MessageRow
  processed : List MessageRow
  booked : List MessageRow
  events : List SendEvent
  aborted : Bool
deriving DecidableEq

/-- The worker's per-tick `for` loop over the fetched job rows. A fault
on a job models an unexpected exception while processing it (e.g. a
store read raising): it propagates past the loop to the tick-level
`except`, so no later job of the tick is evaluated. -/
def run_jobs (store : Store) (now : Int) (fault : Nat → Bool)
    (oracle : String → SendResult) (tagline : String) :
    List MessageRow → List MessageRow → RunResult
  | [], msgs => ⟨msgs, [], [], [], false⟩
  | m :: rest, msgs =>
    if fault m.id then ⟨msgs, [], [], [], true⟩
    else
      let pj := process_job store now oracle tagline m
      let msgs' := if pj.1 then record_pass msgs m.id now else msgs
      let r := run_jobs store now fault oracle tagline rest msgs'
      ⟨r.messages, m :: r.processed, if pj.1 then m :: r.booked else r.booked,
        pj.2 ++ r.events, r.aborted⟩

/-- Result of a whole tick: the store after it, plus the run trace. -/
structure TickResult where
  store : Store
  processed : List MessageRow
  booked : List MessageRow
  events : List SendEvent
  aborted : Bool

/-- One tick of `ads_worker` (lines 983-1031): fetch `SELECT ... FROM
messages WHERE active=1`, then run the per-job loop; the only table the
tick writes is `messages`. -/
def run_tick (store : Store) (now : Int) (fault : Nat → Bool)
    (oracle : String → SendResult) (tagline : String) : TickResult :=
  let ads := store.messages.filter (fun m => m.active)
  let r := run_jobs store now fault oracle tagline ads store.messages
  ⟨{ store with messages := r.messages }, r.processed, r.booked, r.events, r.aborted⟩

/-- The Eligibility Gate of the spec, as the conjunction of the checks
the code applies before a pass: the `active=1` SQL filter (line 987),
`has_active_sub` (line 993), a non-empty active group list (lines
1004-1006) and a usable session string (lines 1007-1009). -/
def eligibility_gate (store : Store) (now : Int) (m : MessageRow) : Bool :=
  m.active && has_active_sub store m.user_id now &&
    !(get_user_groups store m.user_id).isEmpty &&
    (match get_first_session_string store m.user_id with
     | none => false
     | some s => !(s == ""))

/-- `ensure_user` (lines 142-152): insert a fresh row with `paid_until`
set to the creation instant's `utcnow().isoformat()` when none exists. -/
def ensure_user (users : List UserRow) (uid : Nat) (adminId : Nat) (now : Int) : List UserRow :=
  match users.find? (fun u => u.user_id == uid) with
  | some _ => users
  | none => users ++ [⟨uid, uid == adminId, .parsed now, 0⟩]

/-- Find a message row by id, as `WHERE id=?` does. -/
def getMsg (msgs : List MessageRow) (i : Nat) : Option MessageRow :=
  msgs.find? (fun r => r.id == i)

/-- The change `record_pass` applies to the selected row. -/
def stamp (now : Int) (r : MessageRow) : MessageRow :=
  { r with last_sent := .parsed now, sent_count := r.sent_count + 1 }

/-- Agreement of two message rows on every field except `last_sent` and
`sent_count`. -/
def frame_ok (r r' : MessageRow) : Prop :=
  r'.id = r.id ∧ r'.user_id = r.user_id ∧ r'.text = r.text ∧
    r'.photo_path = r.photo_path ∧ r'.interval_sec = r.interval_sec ∧ r'.active = r.active

/-- Pointwise frame agreement of two message tables. -/
def framePreserved (old new : List MessageRow) : Prop :=
  new.length = old.length ∧
    ∀ (k : Nat) (h1 : k < old.length) (h2 : k < new.length),
      frame_ok (old.get ⟨k, h1⟩) (new.get ⟨k, h2⟩)

/-! Concrete fixtures used by the closed witness and counterexample
statements: one owner (user 7) with a live subscription at time 50, one
linked account, two registered groups, and two active jobs. -/

/-- Fixture: first group of user 7. -/
def gA : GroupRow := ⟨1, 7, "a", "A", true⟩

/-- Fixture: second group of user 7. -/
def gB : GroupRow := ⟨2, 7, "b", "B", true⟩

/-- Fixture: user 7, subscription paid until time 100. -/
def u7 : UserRow := ⟨7, false, .parsed 100, 0⟩

/-- Fixture: the linked account of user 7. -/
def acc7 : AccountRow := ⟨1, 7, "p", "sess", true⟩

/-- Fixture: an active never-run job of user 7. -/
def m1 : MessageRow := ⟨1, 7, "hi", none, 60, .falsy, true, 0⟩

/-- Fixture: a second active never-run job of user 7. -/
def m2 : MessageRow := ⟨2, 7, "yo", none, 60, .falsy, true, 3⟩

/-- Fixture: a deactivated job of user 7. -/
def mOff : MessageRow := ⟨3, 7, "off", none, 60, .falsy, false, 0⟩

/-- Fixture store holding the rows above. -/
def store2 : Store := ⟨[u7], [acc7], [gA, gB], [m1, m2]⟩

/-- Oracle that throttles destination "a" with a 5 second wait and
accepts everything else. -/
def throttleOracle : String → SendResult :=
  fun ref => if ref = "a" then .floodWait 5 else .ok

/-- Oracle under which every send succeeds. -/
def okOracle : String → SendResult := fun _ => .ok

/-- Fault oracle: no job-level failure. -/
def noFault : Nat → Bool := fun _ => false

/-- Fault oracle: an unexpected error while processing the job with
message id 1. -/
def faultOn1 : Nat → Bool := fun i => i == 1

/-- Fixture: a store whose only user is the freshly registered user 9
(created at time 100, no approved payment since). -/
def storeFresh : Store := ⟨ensure_user [] 9 99 100, [], [], []⟩

/-- Fixture: a job owned by the fresh user 9. -/
def mFresh : MessageRow := ⟨5, 9, "x", none, 60, .falsy, true, 0⟩

/-! Helper lemmas about the fan-out pass. -/

theorem attemptRefs_append (l1 l2 : List SendEvent) :
    attemptRefs (l1 ++ l2) = attemptRefs l1 ++ attemptRefs l2 := by
  induction l1 with
  | nil => rfl
  | cons e es ih =>
    cases e with
    | attempt ref t p r => simp [attemptRefs, ih]
    | sleep ms => simp [attemptRefs, ih]

theorem attemptRefs_send_events (oracle : String → SendResult) (txt : String)
    (photo : Option String) (g : GroupRow) :
    attemptRefs (send_events oracle txt photo g) = [g.group_id] := by
  unfold send_events
  cases oracle g.group_id <;> rfl

theorem attemptRefs_fanout (groups : List GroupRow) (oracle : String → SendResult)
    (txt : String) (photo : Option String) :
    attemptRefs (fanout_pass groups oracle txt photo) = groups.map (fun g => g.group_id) := by
  induction groups with
  | nil => rfl
  | cons g gs ih =>
    rw [fanout_pass, attemptRefs_append, attemptRefs_send_events, ih]
    rfl

theorem mem_send_events_attempt (oracle : String → SendResult) (txt : String)
    (photo : Option String) (g : GroupRow) (ref t : String) (pho : Option String)
    (r : SendResult) (h : SendEvent.attempt ref t pho r ∈ send_events oracle txt photo g) :
    t = txt ∧ pho = photo := by
  unfold send_events at h
  cases ho : oracle g.group_id <;> rw [ho] at h <;> simp_all

theorem mem_fanout_attempt (groups : List GroupRow) (oracle : String → SendResult)
    (txt : String) (photo : Option String) (ref t : String) (pho : Option String)
    (r : SendResult) (h : SendEvent.attempt ref t pho r ∈ fanout_pass groups oracle txt photo) :
    t = txt ∧ pho = photo := by
  induction groups with
  | nil => cases h
  | cons g gs ih =>
    rw [fanout_pass] at h
    rcases List.mem_append.mp h with h1 | h2
    · exact mem_send_events_attempt oracle txt photo g ref t pho r h1
    · exact ih h2

theorem process_job_spec (store : Store) (now : Int) (oracle : String → SendResult)
    (tagline : String) (m : MessageRow)
    (h : (process_job store now oracle tagline m).1 = true) :
    has_active_sub store m.user_id now = true ∧
    is_due m.last_sent m.interval_sec now = true ∧
    (get_user_groups store m.user_id).isEmpty = false ∧
    (∃ s, get_first_session_string store m.user_id = some s ∧ s ≠ "") ∧
    (process_job store now oracle tagline m).2 =
      fanout_pass (get_user_groups store m.user_id) oracle (full_text tagline m.text)
        m.photo_path := by
  unfold process_job at h
  by_cases h1 : has_active_sub store m.user_id now
  · by_cases h2 : is_due m.last_sent m.interval_sec now
    · by_cases h3 : (get_user_groups store m.user_id).isEmpty
      · simp [h1, h2, h3] at h
      · cases hs : get_first_session_string store m.user_id with
        | none => rw [hs] at h; simp [h1, h2, h3] at h
        | some s =>
          by_cases h4 : s = ""
          · rw [hs] at h; simp [h1, h2, h3, h4] at h
          · have h5 : process_job store now oracle tagline m =
                (true, fanout_pass (get_user_groups store m.user_id) oracle
                  (full_text tagline m.text) m.photo_path) := by
              unfold process_job
              rw [hs]
              simp [h1, h2, h3, h4]
            exact ⟨h1, h2, by simpa using h3, ⟨s, rfl, h4⟩, by rw [h5]⟩
    · simp [h1, h2] at h
  · simp [h1] at h

/-- C4: the Due-Time Gate returns true iff the job's last-run timestamp
is unset, or the elapsed time since last run is at least the job's
interval in seconds; the boundary is inclusive (at exactly `interval`
seconds elapsed, `now - t < interval` is false, so the job is due). -/
theorem due_time_gate_spec (interval now t : Int) :
    is_due .falsy interval now = true ∧
    (is_due (.parsed t) interval now = true ↔ interval ≤ now - t) := by
  refine ⟨rfl, ?_⟩
  simp [is_due, not_lt]

/-- C6: a stored last-run timestamp that is present but unparsable is
treated as due immediately; the whole per-job evaluation behaves exactly
as if the job had never run (the parse failure hits the `except: pass`
and the pass proceeds). -/
theorem due_time_gate_fail_open (store : Store) (now : Int) (oracle : String → SendResult)
    (tagline : String) (m : MessageRow) :
    is_due .unparsable m.interval_sec now = true ∧
    process_job store now oracle tagline { m with last_sent := .unparsable } =
      process_job store now oracle tagline { m with last_sent := .falsy } := by
  exact ⟨rfl, rfl⟩

/-- C1 counterexample: the claim says a destination whose send throttles
is retried once after the sleep, so destination "a" (throttled by the
oracle) would receive 2 send attempts in the pass; the code makes
exactly 1 attempt and moves on. -/
theorem throttle_no_retry_counterexample :
    countAttempts "a" (fanout_pass [gA, gB] throttleOracle "hi" none) = 1 ∧
    ¬ countAttempts "a" (fanout_pass [gA, gB] throttleOracle "hi" none) = 2 := by
  constructor
  · decide
  · decide

/-- C1 amended: on a provider throttle signal carrying a wait duration,
the sender sleeps exactly that duration (the sleep event of `1000 * s`
ms directly follows the throttled attempt) and then moves on to the
next destination without retrying the throttled one; every destination
receives exactly one send attempt per pass, in registration order, so
later destinations are still attempted. -/
theorem throttle_sleep_and_move_on (groups : List GroupRow) (oracle : String → SendResult)
    (txt : String) (photo : Option String) (g : GroupRow) (s : Nat)
    (hg : g ∈ groups) (ho : oracle g.group_id = .floodWait s) :
    attemptRefs (fanout_pass groups oracle txt photo) = groups.map (fun x => x.group_id) ∧
    List.IsInfix
      [SendEvent.attempt g.group_id txt photo (.floodWait s), SendEvent.sleep (1000 * s)]
      (fanout_pass groups oracle txt photo) := by
  refine ⟨attemptRefs_fanout groups oracle txt photo, ?_⟩
  induction groups with
  | nil => cases hg
  | cons a gs ih =>
    rcases List.mem_cons.mp hg with rfl | hg'
    · refine ⟨[], fanout_pass gs oracle txt photo, ?_⟩
      simp [fanout_pass, send_events, ho]
    · obtain ⟨pre, post, hpp⟩ := ih hg'
      refine ⟨send_events oracle txt photo a ++ pre, post, ?_⟩
      rw [fanout_pass, ← hpp]
      simp

/-- C1 amended, witness at the concrete fixture: destination "a"
throttles with a 5 second wait. -/
theorem throttle_sleep_and_move_on_witness :
    attemptRefs (fanout_pass [gA, gB] throttleOracle "hi" none) =
      [gA, gB].map (fun x => x.group_id) ∧
    List.IsInfix
      [SendEvent.attempt gA.group_id "hi" none (.floodWait 5), SendEvent.sleep (1000 * 5)]
      (fanout_pass [gA, gB] throttleOracle "hi" none) :=
  throttle_sleep_and_move_on [gA, gB] throttleOracle "hi" none gA 5 (by decide)
    (by decide)

theorem run_jobs_fault_split (store : Store) (now : Int) (fault : Nat → Bool)
    (oracle : String → SendResult) (tagline : String) :
    ∀ (l1 : List MessageRow) (m : MessageRow) (l2 msgs : List MessageRow),
      (∀ m' ∈ l1, fault m'.id = false) → fault m.id = true →
      (run_jobs store now fault oracle tagline (l1 ++ m :: l2) msgs).processed = l1 ∧
      (run_jobs store now fault oracle tagline (l1 ++ m :: l2) msgs).aborted = true := by
  intro l1
  induction l1 with
  | nil =>
    intro m l2 msgs _ hf
    simp [run_jobs, hf]
  | cons a rest ih =>
    intro m l2 msgs hok hf
    have ha : fault a.id = false := hok a (List.mem_cons_self a rest)
    have hr := ih m l2
      (if (process_job store now oracle tagline a).1 then record_pass msgs a.id now else msgs)
      (fun m' hm' => hok m' (List.mem_cons_of_mem a hm')) hf
    simp only [List.cons_append, run_jobs, ha, Bool.false_eq_true, if_false, List.append_eq]
    exact ⟨by rw [hr.1], hr.2⟩

/-- C2 counterexample: with two active, otherwise healthy jobs and an
unexpected error raised while processing the first one, the code's
tick-level `except` aborts the whole tick: the second job is not
processed in that tick (while without the fault both are). -/
theorem tick_abort_counterexample :
    (run_tick store2 50 faultOn1 okOracle "T").aborted = true ∧
    m2 ∈ store2.messages.filter (fun m => m.active) ∧
    m2 ∉ (run_tick store2 50 faultOn1 okOracle "T").processed ∧
    (run_tick store2 50 noFault okOracle "T").processed = [m1, m2] := by
  refine ⟨by decide, by decide, by decide, by decide⟩

/-- C2 amended: an unexpected error while processing one job is caught
at the tick boundary (the `except` wrapping the whole tick body), not at
the job boundary: the jobs evaluated before the failing one in that tick
are processed, the failing job and every job after it in the same tick
are skipped, and the error does not escape the tick (the loop reaches
its next tick). -/
theorem tick_fault_containment (store : Store) (now : Int) (fault : Nat → Bool)
    (oracle : String → SendResult) (tagline : String)
    (l1 : List MessageRow) (m : MessageRow) (l2 : List MessageRow)
    (hads : store.messages.filter (fun r => r.active) = l1 ++ m :: l2)
    (hok : ∀ m' ∈ l1, fault m'.id = false) (hf : fault m.id = true) :
    (run_tick store now fault oracle tagline).processed = l1 ∧
    (run_tick store now fault oracle tagline).aborted = true := by
  have h := run_jobs_fault_split store now fault oracle tagline l1 m l2 store.messages hok hf
  constructor
  · show (run_jobs store now fault oracle tagline
      (store.messages.filter (fun r => r.active)) store.messages).processed = l1
    rw [hads]
    exact h.1
  · show (run_jobs store now fault oracle tagline
      (store.messages.filter (fun r => r.active)) store.messages).aborted = true
    rw [hads]
    exact h.2

/-- C2 amended, witness at the concrete fixture: the fault hits the
first job of the tick, so no job is processed and the tick aborts. -/
theorem tick_fault_containment_witness :
    (run_tick store2 50 faultOn1 okOracle "T").processed = [] ∧
    (run_tick store2 50 faultOn1 okOracle "T").aborted = true :=
  tick_fault_containment store2 50 faultOn1 okOracle "T" [] m1 [m2] (by decide)
    (by intro m' hm'; cases hm') (by decide)

theorem run_jobs_booked_sub (store : Store) (now : Int) (fault : Nat → Bool)
    (oracle : String → SendResult) (tagline : String) :
    ∀ (ads msgs : List MessageRow) (m : MessageRow),
      m ∈ (run_jobs store now fault oracle tagline ads msgs).booked →
      m ∈ ads ∧ (process_job store now oracle tagline m).1 = true := by
  intro ads
  induction ads with
  | nil =>
    intro msgs m hm
    simp [run_jobs] at hm
  | cons a rest ih =>
    intro msgs m hm
    by_cases hf : fault a.id = true
    · simp [run_jobs, hf] at hm
    · have hf' : fault a.id = false := by simpa using hf
      simp only [run_jobs, hf', Bool.false_eq_true, if_false] at hm
      by_cases hp : (process_job store now oracle tagline a).1 = true
      · simp only [hp, if_true] at hm
        rcases List.mem_cons.mp hm with rfl | hm'
        · exact ⟨List.mem_cons_self m rest, hp⟩
        · have := ih (record_pass msgs a.id now) m hm'
          exact ⟨List.mem_cons_of_mem a this.1, this.2⟩
      · simp only [hp, if_false] at hm
        have := ih msgs m hm
        exact ⟨List.mem_cons_of_mem a this.1, this.2⟩

/-- C5: a fan-out pass is attempted for a job in a tick only if the job
is active (the `WHERE active=1` fetch), the owner's subscription expiry
is strictly later than now, the owner's active destination set is
non-empty, and a usable (non-empty) session string exists for the owner;
and for every job with `active = false` the Eligibility Gate is false
regardless of all other fields. -/
theorem eligibility_gate_spec (store : Store) (now : Int) (fault : Nat → Bool)
    (oracle : String → SendResult) (tagline : String) :
    (∀ m ∈ (run_tick store now fault oracle tagline).booked,
      eligibility_gate store now m = true) ∧
    (∀ m : MessageRow, m.active = false → eligibility_gate store now m = false) := by
  constructor
  · intro m hm
    have hm' : m ∈ (run_jobs store now fault oracle tagline
        (store.messages.filter (fun r => r.active)) store.messages).booked := hm
    have hsub := run_jobs_booked_sub store now fault oracle tagline
      (store.messages.filter (fun r => r.active)) store.messages m hm'
    have hact : m.active = true := by
      have := List.mem_filter.mp hsub.1
      simpa using this.2
    obtain ⟨ha, _, hg, ⟨s, hs, hs'⟩, _⟩ :=
      process_job_spec store now oracle tagline m hsub.2
    unfold eligibility_gate
    rw [hact, ha, hg, hs]
    simp [hs']
  · intro m hm
    unfold eligibility_gate
    rw [hm]
    simp

/-- C5 witness: at the concrete fixture the first job is booked in the
no-fault tick and passes the gate, while a deactivated job fails it. -/
theorem eligibility_gate_spec_witness :
    eligibility_gate store2 50 m1 = true ∧ eligibility_gate store2 50 mOff = false :=
  ⟨(eligibility_gate_spec store2 50 noFault okOracle "T").1 m1 (by decide),
   (eligibility_gate_spec store2 50 noFault okOracle "T").2 mOff (by decide)⟩

theorem record_pass_cons (r : MessageRow) (rs : List MessageRow) (j : Nat) (now : Int) :
    record_pass (r :: rs) j now =
      (if r.id == j then stamp now r else r) :: record_pass rs j now := by
  simp [record_pass, stamp]

theorem getMsg_record_pass_ne (msgs : List MessageRow) (j i : Nat) (now : Int) (hij : i ≠ j) :
    getMsg (record_pass msgs j now) i = getMsg msgs i := by
  induction msgs with
  | nil => rfl
  | cons r rs ih =>
    rw [record_pass_cons]
    by_cases hr : r.id = i
    · have hrj : (r.id == j) = false := by
        subst hr
        simpa using hij
      rw [hrj]
      simp [getMsg, List.find?, hr]
    · have h1 : ((if r.id == j then stamp now r else r).id == i) = false := by
        by_cases hj : r.id = j
        · subst hj
          simp [stamp, hr]
        · simp [hj, hr]
      have h2 : (r.id == i) = false := by simpa using hr
      unfold getMsg at ih ⊢
      rw [List.find?_cons, h1, List.find?_cons, h2]
      exact ih

theorem getMsg_record_pass_eq (msgs : List MessageRow) (j : Nat) (now : Int) :
    getMsg (record_pass msgs j now) j = (getMsg msgs j).map (stamp now) := by
  induction msgs with
  | nil => rfl
  | cons r rs ih =>
    rw [record_pass_cons]
    by_cases hr : r.id = j
    · rw [if_pos (by simpa using hr)]
      have hs : ((stamp now r).id == j) = true := by simpa [stamp] using hr
      unfold getMsg
      rw [List.find?_cons, hs, List.find?_cons, (by simpa using hr : (r.id == j) = true)]
      rfl
    · rw [if_neg (by simpa using hr)]
      have h2 : (r.id == j) = false := by simpa using hr
      unfold getMsg at ih ⊢
      rw [List.find?_cons, h2, List.find?_cons, h2]
      exact ih

theorem run_jobs_untouched (store : Store) (now : Int) (fault : Nat → Bool)
    (oracle : String → SendResult) (tagline : String) :
    ∀ (ads msgs : List MessageRow) (i : Nat), i ∉ ads.map (fun r => r.id) →
      getMsg (run_jobs store now fault oracle tagline ads msgs).messages i = getMsg msgs i := by
  intro ads
  induction ads with
  | nil => intro msgs i _; rfl
  | cons a rest ih =>
    intro msgs i hi
    have hia : i ≠ a.id := by
      intro h
      exact hi (by simp [h])
    have hirest : i ∉ rest.map (fun r => r.id) := by
      intro h
      exact hi (by simp [h])
    by_cases hf : fault a.id = true
    · simp [run_jobs, hf]
    · have hf' : fault a.id = false := by simpa using hf
      simp only [run_jobs, hf', Bool.false_eq_true, if_false]
      by_cases hp : (process_job store now oracle tagline a).1 = true
      · simp only [hp, if_true]
        rw [ih (record_pass msgs a.id now) i hirest]
        exact getMsg_record_pass_ne msgs a.id i now hia
      · simp only [hp, if_false]
        exact ih msgs i hirest

theorem getMsg_self (msgs : List MessageRow) (m : MessageRow)
    (hnd : (msgs.map (fun r => r.id)).Nodup) (hm : m ∈ msgs) :
    getMsg msgs m.id = some m := by
  induction msgs with
  | nil => cases hm
  | cons r rs ih =>
    rcases List.mem_cons.mp hm with rfl | hm'
    · unfold getMsg
      rw [List.find?_cons]
      simp
    · have hr : r.id ≠ m.id := by
        intro h
        have h1 : r.id ∉ rs.map (fun x => x.id) := (List.nodup_cons.mp (by simpa using hnd)).1
        exact h1 (h ▸ List.mem_map_of_mem (fun x => x.id) hm')
      unfold getMsg at ih ⊢
      rw [List.find?_cons, (by simpa using hr : (r.id == m.id) = false)]
      exact ih (List.nodup_cons.mp (by simpa using hnd)).2 hm'

theorem run_jobs_booked_once (store : Store) (now : Int) (fault : Nat → Bool)
    (oracle : String → SendResult) (tagline : String) :
    ∀ (ads msgs : List MessageRow),
      (ads.map (fun r => r.id)).Nodup →
      (∀ m' ∈ ads, getMsg msgs m'.id = some m') →
      ∀ m ∈ (run_jobs store now fault oracle tagline ads msgs).booked,
        getMsg (run_jobs store now fault oracle tagline ads msgs).messages m.id =
          some (stamp now m) := by
  intro ads
  induction ads with
  | nil =>
    intro msgs _ _ m hm
    simp [run_jobs] at hm
  | cons a rest ih =>
    intro msgs hnd hsnap m hm
    have hnd' : (rest.map (fun r => r.id)).Nodup := (List.nodup_cons.mp (by simpa using hnd)).2
    have hanotin : a.id ∉ rest.map (fun r => r.id) := (List.nodup_cons.mp (by simpa using hnd)).1
    by_cases hf : fault a.id = true
    · simp [run_jobs, hf] at hm
    · have hf' : fault a.id = false := by simpa using hf
      simp only [run_jobs, hf', Bool.false_eq_true, if_false] at hm ⊢
      by_cases hp : (process_job store now oracle tagline a).1 = true
      · simp only [hp, if_true] at hm ⊢
        have hsnap' : ∀ m' ∈ rest, getMsg (record_pass msgs a.id now) m'.id = some m' := by
          intro m' hm'
          have hne : m'.id ≠ a.id := by
            intro h
            exact hanotin (h ▸ List.mem_map_of_mem (fun x => x.id) hm')
          rw [getMsg_record_pass_ne msgs a.id m'.id now hne]
          exact hsnap m' (List.mem_cons_of_mem a hm')
        rcases List.mem_cons.mp hm with rfl | hm'
        · rw [run_jobs_untouched store now fault oracle tagline rest
            (record_pass msgs m.id now) m.id hanotin]
          rw [getMsg_record_pass_eq msgs m.id now, hsnap m (List.mem_cons_self m rest)]
          rfl
        · exact ih (record_pass msgs a.id now) hnd' hsnap' m hm'
      · simp only [hp, if_false] at hm ⊢
        exact ih msgs hnd' (fun m' hm' => hsnap m' (List.mem_cons_of_mem a hm')) m hm

/-- C3: for every job admitted by both gates in a tick (i.e. for which a
fan-out pass was attempted), the bookkeeping update runs exactly once in
that tick: in the resulting `messages` table the job's row has
`last_sent` set to the current time and `sent_count` incremented by
exactly 1, for every send oracle — in particular also when every
destination of the pass failed. -/
theorem bookkeeping_once (store : Store) (now : Int) (fault : Nat → Bool)
    (oracle : String → SendResult) (tagline : String) (m : MessageRow)
    (hnd : (store.messages.map (fun r => r.id)).Nodup)
    (hm : m ∈ (run_tick store now fault oracle tagline).booked) :
    getMsg (run_tick store now fault oracle tagline).store.messages m.id =
      some { m with last_sent := .parsed now, sent_count := m.sent_count + 1 } := by
  have hsubl : List.Sublist
      ((store.messages.filter (fun r => r.active)).map (fun r => r.id))
      (store.messages.map (fun r => r.id)) :=
    (List.filter_sublist store.messages).map (fun r => r.id)
  have hndads : ((store.messages.filter (fun r => r.active)).map (fun r => r.id)).Nodup :=
    hnd.sublist hsubl
  have hsnap : ∀ m' ∈ store.messages.filter (fun r => r.active),
      getMsg store.messages m'.id = some m' := by
    intro m' hm'
    exact getMsg_self store.messages m' hnd (List.mem_of_mem_filter hm')
  have hm' : m ∈ (run_jobs store now fault oracle tagline
      (store.messages.filter (fun r => r.active)) store.messages).booked := hm
  exact run_jobs_booked_once store now fault oracle tagline
    (store.messages.filter (fun r => r.active)) store.messages hndads hsnap m hm'

/-- C3 witness at the concrete fixture: job `m1` is booked in the
no-fault tick and its row is stamped exactly once. -/
theorem bookkeeping_once_witness :
    getMsg (run_tick store2 50 noFault okOracle "T").store.messages m1.id =
      some { m1 with last_sent := .parsed 50, sent_count := m1.sent_count + 1 } :=
  bookkeeping_once store2 50 noFault okOracle "T" m1 (by decide) (by decide)

theorem framePreserved_refl (msgs : List MessageRow) : framePreserved msgs msgs :=
  ⟨rfl, fun _ _ _ => ⟨rfl, rfl, rfl, rfl, rfl, rfl⟩⟩

theorem framePreserved_trans {a b c : List MessageRow}
    (h1 : framePreserved a b) (h2 : framePreserved b c) : framePreserved a c := by
  obtain ⟨hl1, hp1⟩ := h1
  obtain ⟨hl2, hp2⟩ := h2
  refine ⟨hl2.trans hl1, fun k ha hc => ?_⟩
  have hb : k < b.length := by omega
  obtain ⟨e1, e2, e3, e4, e5, e6⟩ := hp1 k ha hb
  obtain ⟨f1, f2, f3, f4, f5, f6⟩ := hp2 k hb hc
  exact ⟨f1.trans e1, f2.trans e2, f3.trans e3, f4.trans e4, f5.trans e5, f6.trans e6⟩

theorem framePreserved_record_pass (msgs : List MessageRow) (j : Nat) (now : Int) :
    framePreserved msgs (record_pass msgs j now) := by
  refine ⟨by simp [record_pass], fun k h1 h2 => ?_⟩
  simp only [record_pass, List.get_eq_getElem, List.getElem_map]
  split
  · exact ⟨rfl, rfl, rfl, rfl, rfl, rfl⟩
  · exact ⟨rfl, rfl, rfl, rfl, rfl, rfl⟩

theorem framePreserved_run_jobs (store : Store) (now : Int) (fault : Nat → Bool)
    (oracle : String → SendResult) (tagline : String) :
    ∀ (ads msgs : List MessageRow),
      framePreserved msgs (run_jobs store now fault oracle tagline ads msgs).messages := by
  intro ads
  induction ads with
  | nil =>
    intro msgs
    exact framePreserved_refl msgs
  | cons a rest ih =>
    intro msgs
    by_cases hf : fault a.id = true
    · simp only [run_jobs, hf, if_true]
      exact framePreserved_refl msgs
    · have hf' : fault a.id = false := by simpa using hf
      simp only [run_jobs, hf', Bool.false_eq_true, if_false]
      by_cases hp : (process_job store now oracle tagline a).1 = true
      · simp only [hp, if_true]
        exact framePreserved_trans (framePreserved_record_pass msgs a.id now)
          (ih (record_pass msgs a.id now))
      · simp only [hp, if_false]
        exact ih msgs

/-- C7: across a whole tick, for every store, send oracle and fault
oracle, the scheduler never writes the `users`, `accounts` or `groups`
tables (Owner Subscription State, Credential, Destination), and in the
`messages` table every row keeps its id, owner, text, photo, interval
and active flag: only `last_sent` and `sent_count` can change. -/
theorem scheduler_frame (store : Store) (now : Int) (fault : Nat → Bool)
    (oracle : String → SendResult) (tagline : String) :
    (run_tick store now fault oracle tagline).store.users = store.users ∧
    (run_tick store now fault oracle tagline).store.accounts = store.accounts ∧
    (run_tick store now fault oracle tagline).store.groups = store.groups ∧
    framePreserved store.messages (run_tick store now fault oracle tagline).store.messages :=
  ⟨rfl, rfl, rfl,
    framePreserved_run_jobs store now fault oracle tagline
      (store.messages.filter (fun m => m.active)) store.messages⟩

/-- C8: whenever a fan-out pass is attempted for a job, the destinations
attempted are exactly the owner's current active destination set as read
from the store at send time (`get_user_groups`, i.e. the owner's
`groups` rows with `is_active=1` in the current store) — a job row
carries no destination snapshot, so additions and soft-deletions are
reflected in the next pass. -/
theorem destinations_read_at_send_time (store : Store) (now : Int)
    (oracle : String → SendResult) (tagline : String) (m : MessageRow)
    (h : (process_job store now oracle tagline m).1 = true) :
    attemptRefs (process_job store now oracle tagline m).2 =
      (get_user_groups store m.user_id).map (fun g => g.group_id) ∧
    get_user_groups store m.user_id =
      store.groups.filter (fun g => g.user_id == m.user_id && g.is_active) := by
  obtain ⟨_, _, _, _, htrace⟩ := process_job_spec store now oracle tagline m h
  refine ⟨?_, rfl⟩
  rw [htrace]
  exact attemptRefs_fanout (get_user_groups store m.user_id) oracle
    (full_text tagline m.text) m.photo_path

/-- C8 witness at the concrete fixture: the pass for `m1` goes to the
current active groups of user 7. -/
theorem destinations_read_at_send_time_witness :
    attemptRefs (process_job store2 50 okOracle "T" m1).2 =
      (get_user_groups store2 m1.user_id).map (fun g => g.group_id) ∧
    get_user_groups store2 m1.user_id =
      store2.groups.filter (fun g => g.user_id == m1.user_id && g.is_active) :=
  destinations_read_at_send_time store2 50 okOracle "T" m1 (by decide)

theorem process_job_cases (store : Store) (now : Int) (oracle : String → SendResult)
    (tagline : String) (m : MessageRow) :
    process_job store now oracle tagline m = (false, []) ∨
    (process_job store now oracle tagline m).1 = true := by
  unfold process_job
  by_cases h1 : has_active_sub store m.user_id now
  · by_cases h2 : is_due m.last_sent m.interval_sec now
    · by_cases h3 : (get_user_groups store m.user_id).isEmpty
      · left
        simp [h1, h2, h3]
      · cases hs : get_first_session_string store m.user_id with
        | none => left; simp [h1, h2, h3]
        | some s =>
          by_cases h4 : s = ""
          · left
            simp [h1, h2, h3, h4]
          · right
            simp [h1, h2, h3, h4]
    · left
      simp [h1, h2]
  · left
    simp [h1]

theorem record_pass_preserves_content (msgs : List MessageRow) (j : Nat) (now : Int) :
    (record_pass msgs j now).map (fun x => x.text) = msgs.map (fun x => x.text) ∧
    (record_pass msgs j now).map (fun x => x.photo_path) =
      msgs.map (fun x => x.photo_path) := by
  induction msgs with
  | nil => exact ⟨rfl, rfl⟩
  | cons r rs ih =>
    rw [record_pass_cons]
    constructor
    · simp only [List.map_cons, ih.1]
      congr 1
      split
      · rfl
      · rfl
    · simp only [List.map_cons, ih.2]
      congr 1
      split
      · rfl
      · rfl

/-- C9: every send attempt of a fan-out pass carries exactly the job's
stored text followed by a blank line and the tagline when the configured
tagline is non-empty, and the stored text verbatim when the tagline is
empty; the photo handed over is the stored one; and the bookkeeping
update never modifies the stored content (text or photo) of any row. -/
theorem sent_text_appends_tagline (store : Store) (now : Int) (oracle : String → SendResult)
    (tagline : String) (m : MessageRow) (ref t : String) (pho : Option String) (r : SendResult)
    (h : SendEvent.attempt ref t pho r ∈ (process_job store now oracle tagline m).2) :
    (tagline ≠ "" → t = m.text ++ "\n\n" ++ tagline) ∧
    (tagline = "" → t = m.text) ∧
    pho = m.photo_path ∧
    ∀ (msgs : List MessageRow) (j : Nat) (now2 : Int),
      (record_pass msgs j now2).map (fun x => x.text) = msgs.map (fun x => x.text) ∧
      (record_pass msgs j now2).map (fun x => x.photo_path) =
        msgs.map (fun x => x.photo_path) := by
  rcases process_job_cases store now oracle tagline m with hempty | hatt
  · rw [hempty] at h
    cases h
  · obtain ⟨_, _, _, _, htrace⟩ := process_job_spec store now oracle tagline m hatt
    rw [htrace] at h
    obtain ⟨ht, hpho⟩ := mem_fanout_attempt (get_user_groups store m.user_id) oracle
      (full_text tagline m.text) m.photo_path ref t pho r h
    refine ⟨?_, ?_, hpho, fun msgs j now2 => record_pass_preserves_content msgs j now2⟩
    · intro htl
      rw [ht]
      unfold full_text
      rw [if_neg htl]
    · intro htl
      rw [ht]
      unfold full_text
      rw [if_pos htl]

/-- C9 witness at the concrete fixture: with tagline "T" the text sent
for `m1` is its stored text, a blank line, and "T". -/
theorem sent_text_appends_tagline_witness :
    ("T" ≠ "" → "hi\n\nT" = m1.text ++ "\n\n" ++ "T") ∧
    ("T" = "" → "hi\n\nT" = m1.text) ∧
    (none : Option String) = m1.photo_path ∧
    ∀ (msgs : List MessageRow) (j : Nat) (now2 : Int),
      (record_pass msgs j now2).map (fun x => x.text) = msgs.map (fun x => x.text) ∧
      (record_pass msgs j now2).map (fun x => x.photo_path) =
        msgs.map (fun x => x.photo_path) :=
  sent_text_appends_tagline store2 50 okOracle "T" m1 "a" "hi\n\nT" none .ok (by decide)

theorem find?_append_none (p : UserRow → Bool) (l1 l2 : List UserRow)
    (h : l1.find? p = none) : (l1 ++ l2).find? p = l2.find? p := by
  induction l1 with
  | nil => rfl
  | cons a l ih =>
    cases hpa : p a with
    | true =>
      simp only [List.find?_cons, hpa] at h
      exact Option.noConfusion h
    | false =>
      simp only [List.find?_cons, hpa] at h
      rw [List.cons_append]
      simp only [List.find?_cons, hpa]
      exact ih h

theorem find_user_ensure_fresh (users : List UserRow) (uid adminId : Nat) (created : Int)
    (hfresh : users.find? (fun u => u.user_id == uid) = none) :
    (ensure_user users uid adminId created).find? (fun u => u.user_id == uid) =
      some ⟨uid, uid == adminId, .parsed created, 0⟩ := by
  unfold ensure_user
  rw [hfresh]
  rw [find?_append_none (fun u => u.user_id == uid) users _ hfresh]
  simp [List.find?_cons]

/-- C10: `ensure_user` creates a fresh user record with its subscription
expiry (`paid_until`) equal to the creation instant, and the
subscription check demands `now < paid_until` strictly; hence for every
fresh user with no approved payment, at any time at or after creation,
`has_active_sub` is false and none of the user's jobs pass the
Eligibility Gate. -/
theorem fresh_user_not_eligible (store : Store) (users : List UserRow)
    (uid adminId : Nat) (created now : Int) (m : MessageRow)
    (hfresh : users.find? (fun u => u.user_id == uid) = none)
    (hstore : store.users = ensure_user users uid adminId created)
    (hnow : created ≤ now) (hm : m.user_id = uid) :
    has_active_sub store uid now = false ∧ eligibility_gate store now m = false := by
  have hfind : find_user store uid = some ⟨uid, uid == adminId, .parsed created, 0⟩ := by
    unfold find_user
    rw [hstore]
    exact find_user_ensure_fresh users uid adminId created hfresh
  have hlt : ¬ (now < created) := not_lt.mpr hnow
  have hsub : has_active_sub store uid now = false := by
    unfold has_active_sub
    rw [hfind]
    simp [hlt]
  refine ⟨hsub, ?_⟩
  unfold eligibility_gate
  rw [hm, hsub]
  simp

/-- C10 witness: the freshly created user 9 of the fixture store is not
subscribed at its own creation instant and its job fails the gate. -/
theorem fresh_user_not_eligible_witness :
    has_active_sub storeFresh 9 100 = false ∧
    eligibility_gate storeFresh 100 mFresh = false :=
  fresh_user_not_eligible storeFresh [] 9 99 100 100 mFresh rfl rfl (by decide) rfl
